import Mathlib

/-!
# Verification of `olegskl/queue` (concurrent queue, `queue.js`)

Shallow embedding of the queue implementation (the current revision of
`queue.js`, whose constructor is `module.exports = function (initialOptions)`).
The queue's mutable closure state (`options.concurrency`, `options.worker`,
`options.callback`, `isClosed`, `items`, `running`) is a Lean structure; every
public method and the internal `work` dispatch loop becomes a state-transition
function translated line by line from the source.

Asynchrony is modelled with an event trace: a `process.nextTick(work)` call
increments a ghost counter `scheduled`, and a `tick` event fires one queued
`work`; a worker invoking its completion handler is a `done` event.  Ghost
fields record the observable history: `dispatched` (items passed to the worker,
in invocation order), `callbackCalls` (every invocation of the completion
callback, with its error argument), `accepted` (items accepted by `add`), and
`inflight` (workers dispatched whose completion handler has not yet run — the
gate encoding that each worker invokes its handler at most once).

JavaScript's dynamically-typed `concurrency` number is modelled as `ℚ`
(the setter accepts any number, including zero, negative and fractional
values); `running` is `ℤ` as in the source it is an integer counter that is
incremented and decremented.  The `worker` and `callback` options hold
functions; their identity is modelled by opaque `ℕ` handles, since the
functions' behaviour enters the model only through `tick`/`done` events.
-/

/-- The queue's state.  Fields `concurrency`, `worker`, `callback` mirror the
`options` object; `isClosed`, `items`, `running` mirror the closure variables
of the same names.  The remaining fields are ghost observations (see the
module docstring). -/
structure QueueState (α ε : Type) where
  concurrency : ℚ
  worker : Nat
  callback : Nat
  isClosed : Bool
  items : List α
  running : Int
  inflight : Nat
  scheduled : Nat
  dispatched : List α
  callbackCalls : List (Option ε)
  accepted : List α
deriving Repr, DecidableEq

namespace Queue

/-- The state right after `module.exports = function () {...}` builds the
queue with no options: `concurrency: 10`, `worker: noop`, `callback: noop`,
`isClosed = false`, `items = []`, `running = 0`.  Construction with options
is modelled by following `initQueue` with setter steps, exactly as the source
forwards `initialOptions` through `queue.options`. -/
def initQueue (α ε : Type) : QueueState α ε :=
  { concurrency := 10, worker := 0, callback := 0, isClosed := false,
    items := [], running := 0, inflight := 0, scheduled := 0,
    dispatched := [], callbackCalls := [], accepted := [] }

/-- The internal `work` function, one dispatch attempt:
abort when `running >= options.concurrency || !items.length`; otherwise
`running += 1` and invoke `options.worker(items.shift(), ...)` — recorded by
incrementing `inflight` and appending the head item to `dispatched`. -/
def work (s : QueueState α ε) : QueueState α ε :=
  match s.items with
  | [] => s
  | x :: rest =>
    if s.concurrency ≤ (s.running : ℚ) then s
    else { s with running := s.running + 1, inflight := s.inflight + 1,
                  items := rest, dispatched := s.dispatched ++ [x] }

/-- The completion handler passed to the worker (the anonymous
`function (err)` inside `work`).  It can only run for a worker that is in
flight (`inflight ≠ 0`); invoking it consumes that worker's one permitted
call.  With a truthy `err`: `isClosed = true; items = []; callback(err);
return`.  With a falsy `err`: `running -= 1`, then either the final callback
(closed, no items, no running) or a recursive `work()`. -/
def done (err : Option ε) (s : QueueState α ε) : QueueState α ε :=
  if s.inflight = 0 then s
  else
    match err with
    | some e =>
      { s with inflight := s.inflight - 1, isClosed := true, items := [],
               callbackCalls := s.callbackCalls ++ [some e] }
    | none =>
      if s.isClosed = true ∧ s.items.isEmpty = true ∧ s.running - 1 = 0 then
        { s with inflight := s.inflight - 1, running := s.running - 1,
                 callbackCalls := s.callbackCalls ++ [none] }
      else work { s with inflight := s.inflight - 1, running := s.running - 1 }

/-- `queue.add(item)`: if `!isClosed`, push the item and call
`process.nextTick(work)` (recorded in `scheduled`); otherwise do nothing. -/
def add (x : α) (s : QueueState α ε) : QueueState α ε :=
  if s.isClosed = true then s
  else { s with items := s.items ++ [x], scheduled := s.scheduled + 1,
                accepted := s.accepted ++ [x] }

/-- `queue.clear()`: `items = []`. -/
def clear (s : QueueState α ε) : QueueState α ε :=
  { s with items := [] }

/-- `queue.open()`: `isClosed = false; process.nextTick(work)`. -/
def openQ (s : QueueState α ε) : QueueState α ε :=
  { s with isClosed := false, scheduled := s.scheduled + 1 }

/-- `queue.close()`: `isClosed = true`, then
`if (!running && !items.length) { options.callback(); }`. -/
def close (s : QueueState α ε) : QueueState α ε :=
  if s.running = 0 ∧ s.items.isEmpty = true then
    { s with isClosed := true, callbackCalls := s.callbackCalls ++ [none] }
  else { s with isClosed := true }

/-- Setter half of `queue.concurrency(c)`: any number is accepted
(`typeof concurrency === 'number'` is the only guard, so `0`, negative and
fractional values all pass). -/
def concurrency (c : ℚ) (s : QueueState α ε) : QueueState α ε :=
  { s with concurrency := c }

/-- Setter half of `queue.worker(fn)` (function handles are opaque `ℕ`). -/
def setWorker (w : Nat) (s : QueueState α ε) : QueueState α ε :=
  { s with worker := w }

/-- Setter half of `queue.callback(fn)` (function handles are opaque `ℕ`). -/
def setCallback (k : Nat) (s : QueueState α ε) : QueueState α ε :=
  { s with callback := k }

/-- Events driving the queue: the public methods, a `tick` (one queued
`process.nextTick(work)` callback fires), and `done err` (an in-flight worker
invokes its completion handler).  `queue.options(map)` forwards each
recognized key through the corresponding setter (source lines 220–225), so an
`options` call is a sequence of setter events. -/
inductive QOp (α ε : Type) where
  | add (x : α)
  | clear
  | openQ
  | close
  | setConcurrency (c : ℚ)
  | setWorker (w : Nat)
  | setCallback (k : Nat)
  | tick
  | done (err : Option ε)
deriving Repr, DecidableEq

/-- One event. -/
def step (s : QueueState α ε) : QOp α ε → QueueState α ε
  | .add x => add x s
  | .clear => clear s
  | .openQ => openQ s
  | .close => close s
  | .setConcurrency c => concurrency c s
  | .setWorker w => setWorker w s
  | .setCallback k => setCallback k s
  | .tick => if s.scheduled = 0 then s else work { s with scheduled := s.scheduled - 1 }
  | .done err => done err s

/-- A sequence of events. -/
def runOps (s : QueueState α ε) : List (QOp α ε) → QueueState α ε
  | [] => s
  | op :: ops => runOps (step s op) ops


/-! ## Concrete states and traces used in the claim theorems -/

/-- A state with exactly one worker in flight: one item added and dispatched. -/
def qsOneInFlight : QueueState Nat Nat :=
  work (add 5 (initQueue Nat Nat))

/-- Two items added and dispatched under concurrency 2, then both in-flight
workers report an error. -/
def doubleErrorTrace : List (QOp Nat Nat) :=
  [.add 7, .add 8, .tick, .tick, .done (some 1), .done (some 2)]

/-- Two items dispatched under concurrency 2, then the limit is lowered to 1
while both are still running. -/
def lowerLimitTrace : List (QOp Nat Nat) :=
  [.add 1, .add 2, .tick, .tick, .setConcurrency 1]

/-! ## Derived definitions used by the claim statements -/

/-- A burst of `queue.add` calls, in order. -/
def addAll (xs : List α) (s : QueueState α ε) : QueueState α ε :=
  xs.foldl (fun t x => add x t) s

/-- Iterate successful worker completions (`done()` with no error). -/
def doneTimes : Nat → QueueState α ε → QueueState α ε
  | 0, s => s
  | k + 1, s => doneTimes k (done none s)

/-- In-flight workers never outnumber the `running` counter. -/
def CountsOk (s : QueueState α ε) : Prop := (s.inflight : Int) ≤ s.running

/-- Events that leave the configured concurrency limit untouched. -/
def keepsConcurrency : QOp α ε → Bool
  | .setConcurrency _ => false
  | _ => true

/-- The limit equals the integer `n` and `running` is within it. -/
def BoundedBy (n : ℤ) (s : QueueState α ε) : Prop :=
  s.concurrency = (n : ℚ) ∧ s.running ≤ n

/-- Events other than `clear` and the `concurrency` setter. -/
def benign : QOp α ε → Bool
  | .clear => false
  | .setConcurrency _ => false
  | _ => true

/-- A stalled configuration: nonpositive concurrency limit, nonnegative
`running` count, no worker in flight, and a non-empty pending buffer;
`d0`/`c0` pin the dispatch and callback histories. -/
def Stalled (d0 : List α) (c0 : List (Option ε)) (s : QueueState α ε) : Prop :=
  s.concurrency ≤ 0 ∧ 0 ≤ s.running ∧ s.inflight = 0 ∧ s.items ≠ [] ∧
  s.dispatched = d0 ∧ s.callbackCalls = c0

/-! ## Counting invariants

`CountsOk` states that the in-flight workers (those whose completion handler
has not run yet) never outnumber the `running` counter; since `inflight` is a
natural number this yields `0 ≤ running` in every reachable state.  The error
path decrements only `inflight`, so the inequality is preserved there. -/

theorem countsOk_work (s : QueueState α ε) (h : CountsOk s) :
    CountsOk (work s) := by
  unfold CountsOk at h ⊢
  unfold work
  split
  · exact h
  · split
    · exact h
    · dsimp only; omega

theorem countsOk_done (err : Option ε) (s : QueueState α ε) (h : CountsOk s) :
    CountsOk (done err s) := by
  unfold CountsOk at h
  unfold CountsOk done
  split
  · exact h
  · rename_i hne
    cases err with
    | some e => dsimp only; omega
    | none =>
      dsimp only
      split
      · dsimp only; omega
      · refine countsOk_work _ ?_
        unfold CountsOk; dsimp only; omega

theorem countsOk_step (s : QueueState α ε) (op : QOp α ε) (h : CountsOk s) :
    CountsOk (step s op) := by
  cases op with
  | add x =>
    show CountsOk (add x s)
    unfold CountsOk at h ⊢
    unfold add; split
    · exact h
    · exact h
  | clear => exact h
  | openQ => exact h
  | close =>
    show CountsOk (close s)
    unfold CountsOk at h ⊢
    unfold close; split
    · exact h
    · exact h
  | setConcurrency c => exact h
  | setWorker w => exact h
  | setCallback k => exact h
  | tick =>
    show CountsOk (if s.scheduled = 0 then s else work { s with scheduled := s.scheduled - 1 })
    split
    · exact h
    · exact countsOk_work _ h
  | done err => exact countsOk_done err s h

theorem countsOk_runOps (s : QueueState α ε) (ops : List (QOp α ε))
    (h : CountsOk s) : CountsOk (runOps s ops) := by
  induction ops generalizing s with
  | nil => exact h
  | cons op ops ih => exact ih _ (countsOk_step s op h)

theorem boundedBy_work (n : ℤ) (s : QueueState α ε) (h : BoundedBy n s) :
    BoundedBy n (work s) := by
  obtain ⟨h1, h2⟩ := h
  unfold BoundedBy
  unfold work
  split
  · exact ⟨h1, h2⟩
  · split
    · exact ⟨h1, h2⟩
    · rename_i hgate
      constructor
      · dsimp only; exact h1
      · dsimp only
        rw [h1] at hgate
        have hlt : s.running < n := by exact_mod_cast not_le.mp hgate
        omega

theorem boundedBy_done (n : ℤ) (err : Option ε) (s : QueueState α ε)
    (h : BoundedBy n s) : BoundedBy n (done err s) := by
  obtain ⟨h1, h2⟩ := h
  unfold BoundedBy done
  split
  · exact ⟨h1, h2⟩
  · cases err with
    | some e => exact ⟨h1, h2⟩
    | none =>
      dsimp only
      split
      · refine ⟨h1, ?_⟩
        dsimp only
        omega
      · refine boundedBy_work n _ ⟨h1, ?_⟩
        dsimp only
        omega

theorem boundedBy_step (n : ℤ) (s : QueueState α ε) (op : QOp α ε)
    (hop : keepsConcurrency op = true) (h : BoundedBy n s) :
    BoundedBy n (step s op) := by
  cases op with
  | add x =>
    show BoundedBy n (add x s)
    obtain ⟨h1, h2⟩ := h
    unfold BoundedBy
    unfold add; split
    · exact ⟨h1, h2⟩
    · exact ⟨h1, h2⟩
  | clear => exact h
  | openQ => exact h
  | close =>
    show BoundedBy n (close s)
    obtain ⟨h1, h2⟩ := h
    unfold BoundedBy
    unfold close; split
    · exact ⟨h1, h2⟩
    · exact ⟨h1, h2⟩
  | setConcurrency c => simp [keepsConcurrency] at hop
  | setWorker w => exact h
  | setCallback k => exact h
  | tick =>
    show BoundedBy n (if s.scheduled = 0 then s else work { s with scheduled := s.scheduled - 1 })
    split
    · exact h
    · exact boundedBy_work n _ h
  | done err => exact boundedBy_done n err s h

theorem boundedBy_runOps (n : ℤ) (ops : List (QOp α ε)) :
    ∀ s : QueueState α ε, (∀ op ∈ ops, keepsConcurrency op = true) →
      BoundedBy n s → BoundedBy n (runOps s ops) := by
  induction ops with
  | nil => intro s _ h; exact h
  | cons op ops ih =>
    intro s hops h
    exact ih _ (fun o ho => hops o (List.mem_cons_of_mem op ho))
      (boundedBy_step n s op (hops op (List.mem_cons_self op ops)) h)

/-! ## Claim theorems -/

/-- C1.  The claim states that the completion callback fires at most once per
completion/abort epoch, even for completions of workers that were in flight at
the abort.  The code evaluates otherwise: under concurrency 2, with two
workers in flight, the first worker reports error `1` (the callback fires with
it) and the second in-flight worker then reports error `2` — the completion
handler's error branch fires the callback unconditionally again, so the
callback is invoked twice within the same abort epoch. -/
theorem error_abort_callback_fires_twice :
    (runOps (concurrency 2 (initQueue Nat Nat)) doubleErrorTrace).callbackCalls
      = [some 1, some 2] := by decide

/-- C2.  A worker invoking its completion handler with a truthy error value:
the queue sets `isClosed := true`, empties `items`, and invokes the callback
with that exact error; `running` is not decremented and no dispatch is
attempted (`running` and `dispatched` are untouched in the resulting state). -/
theorem error_completion_aborts (s : QueueState α ε) (e : ε)
    (h : 1 ≤ s.inflight) :
    done (some e) s =
      { s with inflight := s.inflight - 1, isClosed := true, items := [],
               callbackCalls := s.callbackCalls ++ [some e] } := by
  unfold done
  rw [if_neg (by omega)]

/-- Witness for C2 at a concrete state with one worker in flight. -/
theorem error_completion_aborts_witness :
    done (some 3) qsOneInFlight =
      { qsOneInFlight with
          inflight := qsOneInFlight.inflight - 1, isClosed := true,
          items := [], callbackCalls := qsOneInFlight.callbackCalls ++ [some 3] } :=
  error_completion_aborts qsOneInFlight 3 (by decide)

/-- C3 counterexample.  The claimed invariant `runningCount ≤ current
concurrency limit` fails on a reachable state: dispatch two items under
concurrency 2, then lower the limit to 1 via the `concurrency` setter while
both workers are still running — the state then has `running = 2 > 1`. -/
theorem running_exceeds_lowered_limit :
    ¬ (((runOps (concurrency 2 (initQueue Nat Nat)) lowerLimitTrace).running : ℚ)
        ≤ (runOps (concurrency 2 (initQueue Nat Nat)) lowerLimitTrace).concurrency) := by
  decide

/-- C5.  `close()` sets `isClosed`; when `running = 0` and no items are
pending it synchronously invokes the callback with no error and changes
nothing else; otherwise it invokes no callback and changes nothing else. -/
theorem close_sets_closed_and_drains (s : QueueState α ε) :
    (close s).isClosed = true ∧
    (s.running = 0 ∧ s.items = [] →
      close s = { s with isClosed := true,
                         callbackCalls := s.callbackCalls ++ [none] }) ∧
    (¬ (s.running = 0 ∧ s.items = []) →
      close s = { s with isClosed := true }) := by
  unfold close
  by_cases h : s.running = 0 ∧ s.items = []
  · rw [if_pos ⟨h.1, by simp [h.2]⟩]
    exact ⟨rfl, fun _ => rfl, fun hc => absurd h hc⟩
  · rw [if_neg (by simpa [List.isEmpty_iff] using h)]
    exact ⟨rfl, fun hp => absurd hp h, fun _ => rfl⟩

/-- Witness for C5 on the freshly constructed queue (drained at close). -/
theorem close_sets_closed_and_drains_witness :
    (close (initQueue Nat Nat)).isClosed = true ∧
    close (initQueue Nat Nat) =
      { initQueue Nat Nat with isClosed := true, callbackCalls := [none] } :=
  ⟨(close_sets_closed_and_drains (initQueue Nat Nat)).1,
   (close_sets_closed_and_drains (initQueue Nat Nat)).2.1 ⟨rfl, rfl⟩⟩

/-- C6.  `add(item)` on a closed queue leaves the state entirely unchanged
(the item is not buffered, nothing is scheduled — in particular it can never
be dispatched, as the subsequent evolution equals that of a queue to which the
`add` never happened); on an open queue it appends the item to the tail of
`items` and schedules one dispatch attempt. -/
theorem add_closed_noop (x : α) (s : QueueState α ε) :
    (s.isClosed = true → add x s = s) ∧
    (s.isClosed = false → add x s =
      { s with items := s.items ++ [x], scheduled := s.scheduled + 1,
               accepted := s.accepted ++ [x] }) := by
  unfold add
  constructor
  · intro h; rw [if_pos h]
  · intro h; rw [if_neg (by simp [h])]

/-- Witness for C6: concrete closed and open states. -/
theorem add_closed_noop_witness :
    add 9 (close (initQueue Nat Nat)) = close (initQueue Nat Nat) ∧
    add 9 (initQueue Nat Nat) =
      { initQueue Nat Nat with items := [9], scheduled := 1, accepted := [9] } :=
  ⟨(add_closed_noop 9 (close (initQueue Nat Nat))).1 (by decide),
   (add_closed_noop 9 (initQueue Nat Nat)).2 rfl⟩

/-- C7.  `clear()` empties the pending buffer and changes nothing else: the
running count, in-flight workers, closed flag, configuration (concurrency,
worker, callback) and the observation histories are all unchanged, so items
already dispatched continue to completion unaffected. -/
theorem clear_only_empties_pending (s : QueueState α ε) :
    clear s = { s with items := [] } ∧
    (clear s).items = [] ∧
    (clear s).running = s.running ∧
    (clear s).inflight = s.inflight ∧
    (clear s).isClosed = s.isClosed ∧
    (clear s).concurrency = s.concurrency ∧
    (clear s).worker = s.worker ∧
    (clear s).callback = s.callback ∧
    (clear s).scheduled = s.scheduled ∧
    (clear s).dispatched = s.dispatched ∧
    (clear s).callbackCalls = s.callbackCalls :=
  ⟨rfl, rfl, rfl, rfl, rfl, rfl, rfl, rfl, rfl, rfl, rfl⟩

/-- C8.  `add` never dispatches synchronously: it leaves `dispatched`,
`running` and `inflight` untouched (the worker cannot run within the `add`
call; the dispatch attempt only happens at a later `tick`).  Moreover a
dispatch attempt re-checks the current state, so a redundant scheduled
attempt — at capacity or with no pending item — is a harmless no-op. -/
theorem add_defers_dispatch (x : α) (s : QueueState α ε) :
    ((add x s).dispatched = s.dispatched ∧
     (add x s).running = s.running ∧
     (add x s).inflight = s.inflight) ∧
    (s.concurrency ≤ (s.running : ℚ) ∨ s.items = [] → work s = s) := by
  constructor
  · unfold add; split <;> exact ⟨rfl, rfl, rfl⟩
  · intro h
    unfold work
    cases hi : s.items with
    | nil => rfl
    | cons a l =>
      rcases h with h | h
      · exact if_pos h
      · rw [hi] at h; exact absurd h (by simp)

/-- Witness for C8 at the initial queue (empty pending buffer). -/
theorem add_defers_dispatch_witness :
    ((add 4 (initQueue Nat Nat)).dispatched = (initQueue Nat Nat).dispatched ∧
     (add 4 (initQueue Nat Nat)).running = (initQueue Nat Nat).running ∧
     (add 4 (initQueue Nat Nat)).inflight = (initQueue Nat Nat).inflight) ∧
    work (initQueue Nat Nat) = initQueue Nat Nat :=
  ⟨(add_defers_dispatch 4 (initQueue Nat Nat)).1,
   (add_defers_dispatch 4 (initQueue Nat Nat)).2 (Or.inr rfl)⟩

/-- C9.  `close()` has no once-only latch: every call made while `running = 0`
and `items = []` appends a callback invocation, so closing twice in a row on a
drained (or never-used) queue invokes the completion callback twice. -/
theorem close_twice_double_callback (s : QueueState α ε)
    (h : s.running = 0) (h2 : s.items = []) :
    (close (close s)).callbackCalls = s.callbackCalls ++ [none, none] := by
  have h1 : close s = { s with isClosed := true,
                               callbackCalls := s.callbackCalls ++ [none] } := by
    unfold close; rw [if_pos ⟨h, by simp [h2]⟩]
  rw [h1]
  unfold close
  rw [if_pos ⟨h, by simp [h2]⟩]
  simp

/-- Witness for C9 at the freshly constructed (empty, idle) queue. -/
theorem close_twice_double_callback_witness :
    (close (close (initQueue Nat Nat))).callbackCalls = [none, none] :=
  close_twice_double_callback (initQueue Nat Nat) rfl rfl

/-- C3 (amended).  Under the precondition that each worker invokes its
completion handler exactly once (encoded by the `inflight` gate on `done`),
the running count is never negative in any reachable state; and it never
exceeds the configured concurrency limit provided the limit is a fixed
nonnegative integer, set at construction and not changed mid-run.  The
unamended claim — which also allowed mid-run `concurrency()`/`options()`
changes — is refuted by `running_exceeds_lowered_limit`. -/
theorem running_nonneg_and_bounded (α ε : Type) :
    (∀ ops : List (QOp α ε), 0 ≤ (runOps (initQueue α ε) ops).running) ∧
    (∀ (n : ℤ) (ops : List (QOp α ε)), 0 ≤ n →
      (∀ op ∈ ops, keepsConcurrency op = true) →
      (runOps (concurrency (n : ℚ) (initQueue α ε)) ops).running ≤ n) := by
  constructor
  · intro ops
    have h := countsOk_runOps (initQueue α ε) ops
      (by unfold CountsOk initQueue; norm_num)
    unfold CountsOk at h
    omega
  · intro n ops hn hops
    exact (boundedBy_runOps n ops _ hops ⟨rfl, hn⟩).2

/-- Witness for C3 at concrete traces. -/
theorem running_nonneg_and_bounded_witness :
    0 ≤ (runOps (initQueue Nat Nat) doubleErrorTrace).running ∧
    (runOps (concurrency ((3 : ℤ) : ℚ) (initQueue Nat Nat)) [.add 1, .tick]).running ≤ 3 :=
  ⟨(running_nonneg_and_bounded Nat Nat).1 doubleErrorTrace,
   (running_nonneg_and_bounded Nat Nat).2 3 [.add 1, .tick] (by norm_num) (by decide)⟩

theorem add_open (x : α) (s : QueueState α ε) (h : s.isClosed = false) :
    add x s = { s with items := s.items ++ [x], scheduled := s.scheduled + 1,
                       accepted := s.accepted ++ [x] } := by
  unfold add; rw [if_neg (by simp [h])]

theorem addAll_open (xs : List α) :
    ∀ s : QueueState α ε, s.isClosed = false →
      addAll xs s = { s with items := s.items ++ xs,
                             scheduled := s.scheduled + xs.length,
                             accepted := s.accepted ++ xs } := by
  induction xs with
  | nil => intro s _; simp [addAll]
  | cons x t ih =>
    intro s h
    show addAll t (add x s) = _
    have hR : ({ s with items := s.items ++ [x], scheduled := s.scheduled + 1,
                        accepted := s.accepted ++ [x] } : QueueState α ε).isClosed = false :=
      h
    rw [add_open x s h, ih _ hR]
    congr 1
    · simp
    · simp only [List.length_cons]
      omega
    · simp

/-- Draining a closed queue that has one worker in flight, `running = 1` and a
pending buffer `ys`, by `ys.length + 1` successful completions: every pending
item is dispatched in FIFO order and the final callback fires once. -/
theorem doneTimes_drain (n : ℕ) (hn : 1 ≤ n) (ys : List α) :
    ∀ (w k sc : Nat) (ds ac : List α) (cs : List (Option ε)),
      doneTimes (ys.length + 1)
        { concurrency := (n : ℚ), worker := w, callback := k, isClosed := true,
          items := ys, running := 1, inflight := 1, scheduled := sc,
          dispatched := ds, callbackCalls := cs, accepted := ac }
      = { concurrency := (n : ℚ), worker := w, callback := k, isClosed := true,
          items := [], running := 0, inflight := 0, scheduled := sc,
          dispatched := ds ++ ys, callbackCalls := cs ++ [none], accepted := ac } := by
  have hgate : ¬ ((n : ℚ) ≤ ((1 - 1 : ℤ) : ℚ)) := by
    norm_num
    omega
  induction ys with
  | nil =>
    intro w k sc ds ac cs
    show doneTimes 0 (done none _) = _
    unfold done
    norm_num
    rfl
  | cons y t ih =>
    intro w k sc ds ac cs
    show doneTimes (t.length + 1) (done none _) = _
    have hstep : done none
        ({ concurrency := (n : ℚ), worker := w, callback := k, isClosed := true,
           items := y :: t, running := 1, inflight := 1, scheduled := sc,
           dispatched := ds, callbackCalls := cs, accepted := ac } : QueueState α ε)
        = { concurrency := (n : ℚ), worker := w, callback := k, isClosed := true,
            items := t, running := 1, inflight := 1, scheduled := sc,
            dispatched := ds ++ [y], callbackCalls := cs, accepted := ac } := by
      unfold done work
      rw [if_neg (by norm_num)]
      rw [if_neg (by simp)]
      dsimp only
      rw [if_neg hgate]
      norm_num
    rw [hstep, ih]
    simp


/-- C4.  For every burst of `add` calls with items `xs` made before `close`,
under any positive integer concurrency limit, running the queue to completion
(one scheduled dispatch attempt, then one successful completion per dispatched
item — each completion re-invoking `work` as in the source) invokes the worker
exactly once per added item, with that exact item value, in the FIFO order of
the `add` calls; the completion callback then fires once with no error.  (No
statement is made about completion order.) -/
theorem fifo_exact_dispatch (α ε : Type) (xs : List α) (n : ℕ) (hn : 1 ≤ n) :
    (doneTimes xs.length
      (work (close (addAll xs (concurrency (n : ℚ) (initQueue α ε)))))).dispatched
        = xs ∧
    (doneTimes xs.length
      (work (close (addAll xs (concurrency (n : ℚ) (initQueue α ε)))))).items = [] ∧
    (doneTimes xs.length
      (work (close (addAll xs (concurrency (n : ℚ) (initQueue α ε)))))).callbackCalls
        = [none] := by
  have hgate0 : ¬ ((n : ℚ) ≤ ((0 : ℤ) : ℚ)) := by
    norm_num
    omega
  cases xs with
  | nil =>
    simp [addAll, initQueue, concurrency, close, work, doneTimes]
  | cons x t =>
    have hS : close (addAll (x :: t) (concurrency (n : ℚ) (initQueue α ε)))
        = { concurrency := (n : ℚ), worker := 0, callback := 0, isClosed := true,
            items := x :: t, running := 0, inflight := 0, scheduled := t.length + 1,
            dispatched := [], callbackCalls := [], accepted := x :: t } := by
      rw [addAll_open _ _ rfl]
      unfold initQueue concurrency close
      norm_num
    have hW : work ({ concurrency := (n : ℚ), worker := 0, callback := 0,
                      isClosed := true, items := x :: t, running := 0,
                      inflight := 0, scheduled := t.length + 1,
                      dispatched := [], callbackCalls := [],
                      accepted := x :: t } : QueueState α ε)
        = { concurrency := (n : ℚ), worker := 0, callback := 0, isClosed := true,
            items := t, running := 1, inflight := 1, scheduled := t.length + 1,
            dispatched := [x], callbackCalls := [], accepted := x :: t } := by
      unfold work
      dsimp only
      rw [if_neg hgate0]
      norm_num
    rw [hS, hW]
    have hlen : (x :: t).length = t.length + 1 := rfl
    rw [hlen, doneTimes_drain n hn t 0 0 (t.length + 1) [x] (x :: t) []]
    simp

/-- Witness for C4: three items under concurrency 2. -/
theorem fifo_exact_dispatch_witness :
    (doneTimes ([3, 1, 2] : List Nat).length
      (work (close (addAll [3, 1, 2]
        (concurrency ((2 : ℕ) : ℚ) (initQueue Nat Nat)))))).dispatched
          = [3, 1, 2] ∧
    (doneTimes ([3, 1, 2] : List Nat).length
      (work (close (addAll [3, 1, 2]
        (concurrency ((2 : ℕ) : ℚ) (initQueue Nat Nat)))))).items = [] ∧
    (doneTimes ([3, 1, 2] : List Nat).length
      (work (close (addAll [3, 1, 2]
        (concurrency ((2 : ℕ) : ℚ) (initQueue Nat Nat)))))).callbackCalls
          = [none] :=
  fifo_exact_dispatch Nat Nat [3, 1, 2] 2 (by norm_num)

theorem stalled_work (s : QueueState α ε) (h1 : s.concurrency ≤ 0)
    (h2 : 0 ≤ s.running) : work s = s := by
  unfold work
  split
  · rfl
  · rw [if_pos (le_trans h1 (by exact_mod_cast h2))]

theorem stalled_step (d0 : List α) (c0 : List (Option ε)) (s : QueueState α ε)
    (op : QOp α ε) (hop : benign op = true) (h : Stalled d0 c0 s) :
    Stalled d0 c0 (step s op) := by
  obtain ⟨hc, hr, hi, hne, hd, hcb⟩ := h
  cases op with
  | add x =>
    show Stalled d0 c0 (add x s)
    unfold Stalled
    unfold add
    split
    · exact ⟨hc, hr, hi, hne, hd, hcb⟩
    · exact ⟨hc, hr, hi, by simp, hd, hcb⟩
  | clear => simp [benign] at hop
  | openQ => exact ⟨hc, hr, hi, hne, hd, hcb⟩
  | close =>
    show Stalled d0 c0 (close s)
    unfold Stalled
    unfold close
    rw [if_neg (fun hcond => hne (List.isEmpty_iff.mp hcond.2))]
    exact ⟨hc, hr, hi, hne, hd, hcb⟩
  | setConcurrency c => simp [benign] at hop
  | setWorker w => exact ⟨hc, hr, hi, hne, hd, hcb⟩
  | setCallback k => exact ⟨hc, hr, hi, hne, hd, hcb⟩
  | tick =>
    show Stalled d0 c0
      (if s.scheduled = 0 then s else work { s with scheduled := s.scheduled - 1 })
    split
    · exact ⟨hc, hr, hi, hne, hd, hcb⟩
    · have hcR : ({ s with scheduled := s.scheduled - 1 } : QueueState α ε).concurrency ≤ 0 := hc
      have hrR : 0 ≤ ({ s with scheduled := s.scheduled - 1 } : QueueState α ε).running := hr
      rw [stalled_work _ hcR hrR]
      exact ⟨hc, hr, hi, hne, hd, hcb⟩
  | done err =>
    show Stalled d0 c0 (done err s)
    unfold done
    rw [if_pos hi]
    exact ⟨hc, hr, hi, hne, hd, hcb⟩

theorem stalled_runOps (d0 : List α) (c0 : List (Option ε))
    (ops : List (QOp α ε)) :
    ∀ s : QueueState α ε, (∀ op ∈ ops, benign op = true) → Stalled d0 c0 s →
      Stalled d0 c0 (runOps s ops) := by
  induction ops with
  | nil => intro s _ h; exact h
  | cons op ops ih =>
    intro s hops h
    exact ih _ (fun o ho => hops o (List.mem_cons_of_mem op ho))
      (stalled_step d0 c0 s op (hops op (List.mem_cons_self op ops)) h)

/-- C10.  The `concurrency` setter stores every rational value verbatim —
zero, negative and fractional included.  Whenever the configured limit is
`≤ 0`, the dispatch gate admits no item (`work` is the identity); and from
any such state with no worker in flight and a non-empty pending buffer, any
sequence of events that does not clear the buffer or change the limit
dispatches nothing and never invokes the completion callback (the non-empty
queue never drains). -/
theorem concurrency_unvalidated_and_blocking (α ε : Type) :
    (∀ (c : ℚ) (s : QueueState α ε), (concurrency c s).concurrency = c) ∧
    (∀ s : QueueState α ε, s.concurrency ≤ 0 → 0 ≤ s.running → work s = s) ∧
    (∀ (s : QueueState α ε) (ops : List (QOp α ε)),
      s.concurrency ≤ 0 → 0 ≤ s.running → s.inflight = 0 → s.items ≠ [] →
      (∀ op ∈ ops, benign op = true) →
      (runOps s ops).dispatched = s.dispatched ∧
      (runOps s ops).items ≠ [] ∧
      (runOps s ops).callbackCalls = s.callbackCalls) := by
  refine ⟨fun c s => rfl, fun s h1 h2 => stalled_work s h1 h2, ?_⟩
  intro s ops h1 h2 h3 h4 hops
  have h := stalled_runOps s.dispatched s.callbackCalls ops s hops
    ⟨h1, h2, h3, h4, rfl, rfl⟩
  exact ⟨h.2.2.2.2.1, h.2.2.2.1, h.2.2.2.2.2⟩

/-- Witness for C10: the setter at the fractional value `1/2`, and a stalled
queue at limits `-1` and `0` with one pending item, driven through a tick, a
close, an add, a reopen and another tick. -/
theorem concurrency_unvalidated_and_blocking_witness :
    (concurrency (1 / 2) (initQueue Nat Nat)).concurrency = 1 / 2 ∧
    work (concurrency (-1) (runOps (initQueue Nat Nat) [.add 5]))
      = concurrency (-1) (runOps (initQueue Nat Nat) [.add 5]) ∧
    ((runOps (concurrency 0 (runOps (initQueue Nat Nat) [.add 5]))
        [.tick, .close, .add 6, .openQ, .tick]).dispatched
      = (concurrency 0 (runOps (initQueue Nat Nat) [.add 5])).dispatched ∧
     (runOps (concurrency 0 (runOps (initQueue Nat Nat) [.add 5]))
        [.tick, .close, .add 6, .openQ, .tick]).items ≠ [] ∧
     (runOps (concurrency 0 (runOps (initQueue Nat Nat) [.add 5]))
        [.tick, .close, .add 6, .openQ, .tick]).callbackCalls
      = (concurrency 0 (runOps (initQueue Nat Nat) [.add 5])).callbackCalls) :=
  ⟨(concurrency_unvalidated_and_blocking Nat Nat).1 (1 / 2) (initQueue Nat Nat),
   (concurrency_unvalidated_and_blocking Nat Nat).2.1
     (concurrency (-1) (runOps (initQueue Nat Nat) [.add 5]))
     (by decide) (by decide),
   (concurrency_unvalidated_and_blocking Nat Nat).2.2
     (concurrency 0 (runOps (initQueue Nat Nat) [.add 5]))
     [.tick, .close, .add 6, .openQ, .tick]
     (by decide) (by decide) (by decide) (by decide) (by decide)⟩

end Queue
